import Mathlib

/-!
# Verification of the archon controller driver

A shallow embedding of the archon repository (wire-protocol reply parser,
`ArchonCommand`, the controller's command-id pool and reader loop, `integrate`,
and the exposure coordinator's file counter), with theorems settling the
specification claims.

Bytes are modelled as natural numbers (the values 0..255 of the Python `bytes`
objects); byte strings as `List ℕ`.  Python exceptions are modelled with
`Except`.
-/

/-- ASCII byte values used throughout: `<` is 60, `|` is 124, `?` is 63,
`:` is 58, newline is 10, `>` is 62. -/
def isReplyTypeByte (b : ℕ) : Bool :=
  b = 60 || b = 124 || b = 63

/-- Uppercase hexadecimal digit as required by `REPLY_RE`'s `[0-9A-F]`
character class (ASCII `0`-`9` are 48..57, `A`-`F` are 65..70). -/
def isUpperHexDigit (b : ℕ) : Bool :=
  (48 ≤ b && b ≤ 57) || (65 ≤ b && b ≤ 70)

/-- Value of an uppercase hexadecimal digit byte (`int(-, 16)` per digit). -/
def hexVal (b : ℕ) : ℕ :=
  if b ≤ 57 then b - 48 else b - 55

/-- Uppercase hexadecimal digit byte for a value in 0..15. -/
def upperHexDigit (d : ℕ) : ℕ :=
  if d < 10 then 48 + d else 55 + d

/-- Lowercase hexadecimal digit byte for a value in 0..15 (ASCII `a` = 97),
as produced by Python's `x` format spec. -/
def lowerHexDigit (d : ℕ) : ℕ :=
  if d < 10 then 48 + d else 87 + d

/-- Python `bytes`/ASCII `str` whitespace bytes, as stripped by `.strip()`:
space, tab, newline, vertical tab, form feed, carriage return. -/
def isPySpace (b : ℕ) : Bool :=
  b = 32 || b = 9 || b = 10 || b = 11 || b = 12 || b = 13

/-- Python `.strip()` on a byte string: remove leading and trailing
whitespace. -/
def pyStrip (l : List ℕ) : List ℕ :=
  ((l.dropWhile isPySpace).reverse.dropWhile isPySpace).reverse

/-- Python `str.upper()` restricted to ASCII, byte by byte (command strings
in this code base are ASCII). -/
def pyUpperByte (b : ℕ) : ℕ :=
  if 97 ≤ b && b ≤ 122 then b - 32 else b

/-- `command_string.upper()` on an ASCII byte string. -/
def pyUpper (l : List ℕ) : List ℕ :=
  l.map pyUpperByte

/-!
## The reply grammar

`REPLY_RE = re.compile(b"^([<|?])([0-9A-F]{2})(:?)(.*)\n?$")` (command.py:21).

Python's `.` does not match a newline and (without `re.MULTILINE`) `$`
matches at the end of the input or just before a trailing newline.  Hence,
writing `tail` for the input after the optional colon, group 4 matches `msg`
exactly when `tail = msg ++ newline^k` with `msg` newline-free and `k ≤ 2`
(`k = 1` consumed by `\n?`; for `k = 2` the `\n?` consumes one newline and
`$` asserts just before the final one).
-/

/-- Group 4 of `REPLY_RE` applied to the input remaining after the optional
colon: `some msg` when the remainder is `msg` followed by at most two
newlines with `msg` newline-free, `none` otherwise. -/
def regexGroup4 (tail : List ℕ) : Option (List ℕ) :=
  let pre := (tail.reverse.dropWhile (fun b => b == 10)).reverse
  let k := tail.length - pre.length
  if k ≤ 2 && !(pre.contains 10) then some pre else none

/-- The parsed form of a reply, embedding `ArchonCommandReply` (command.py:141).
`rtype` is the leading byte (`<`, `|` or `?`); `reply` is the group-4 bytes,
raw for a binary reply and whitespace-stripped for a textual one
(`rmessage.decode().strip()`). -/
structure ArchonCommandReply where
  rtype : ℕ
  command_id : ℕ
  is_binary : Bool
  reply : List ℕ
deriving DecidableEq, Repr

/-- Parses a raw reply frame following `ArchonCommandReply.__init__`
(command.py:162-182): match `REPLY_RE`, decode the two-hex-digit command id,
set `is_binary` from the optional colon, and keep the group-4 message, raw if
binary and `.strip()`-ed if textual.  Returns `none` when `REPLY_RE` does not
match (the constructor raises `ArchonError`). -/
def parseArchonCommandReply (raw : List ℕ) : Option ArchonCommandReply :=
  match raw with
  | t :: h1 :: h2 :: rest =>
    if isReplyTypeByte t && isUpperHexDigit h1 && isUpperHexDigit h2 then
      let isBin := rest.head? = some 58
      let tail := if rest.head? = some 58 then rest.tail else rest
      match regexGroup4 tail with
      | some msg =>
        some { rtype := t
               command_id := hexVal h1 * 16 + hexVal h2
               is_binary := isBin
               reply := if isBin then msg else pyStrip msg }
      | none => none
    else none
  | _ => none

/-- Modelled from the spec: serialization of a parsed reply back to a wire
frame (§4.1, §8 "Parser round-trip").  No serializer exists in the source
(replies are never re-emitted); per §4.1 the command id is "emitted uppercase",
a binary reply is the colon followed by the raw bytes with no trailing
newline, and a textual reply is the text terminated by a newline. -/
def serializeReply (r : ArchonCommandReply) : List ℕ :=
  r.rtype :: upperHexDigit (r.command_id / 16) :: upperHexDigit (r.command_id % 16) ::
    (if r.is_binary then 58 :: r.reply else r.reply ++ [10])

/-!
## ArchonCommand (command.py:24-138)
-/

/-- Status of an Archon command (`ArchonCommandStatus`, command.py:24). -/
inductive ArchonCommandStatus where
  | DONE
  | FAILED
  | RUNNING
  | TIMEDOUT
deriving DecidableEq, Repr

/-- State of an `ArchonCommand` (command.py:33).  `futureDone` records whether
`set_result` has been called on the underlying `asyncio.Future` (true after
`_mark_done` has run once); calling `set_result` again raises
`InvalidStateError`.  Timers are not modelled. -/
structure ArchonCommand where
  command_id : ℕ
  expected_replies : ℕ
  replies : List ArchonCommandReply
  status : ArchonCommandStatus
  futureDone : Bool
deriving DecidableEq, Repr

/-- The range check in `ArchonCommand.__init__` (command.py:72):
`if self.command_id < 0 or self.command_id > 2 ** 8: raise ValueError(...)`.
Returns `true` when the constructor accepts the id (no exception). -/
def archonCommandIdOk (command_id : ℤ) : Bool :=
  !(command_id < 0 || command_id > 2 ^ 8)

/-- `_mark_done` (command.py:127-130): sets the status and calls
`set_result`, which raises `asyncio.InvalidStateError` if the future is
already done. -/
def markDone (c : ArchonCommand) (status : ArchonCommandStatus) :
    Except Unit ArchonCommand :=
  if c.futureDone then Except.error ()
  else Except.ok { c with status := status, futureDone := true }

/-- `process_reply` (command.py:82-125): parse the raw reply (a parse failure
warns and marks FAILED), mark FAILED on a command-id mismatch, otherwise
append the reply, mark FAILED on an error (`?`) reply, and mark DONE when the
reply count reaches `expected_replies`.  The timer reset is not modelled.
`Except.error` is an uncaught `InvalidStateError` from a second
`set_result`. -/
def process_reply (c : ArchonCommand) (raw : List ℕ) :
    Except Unit ArchonCommand :=
  match parseArchonCommandReply raw with
  | none => markDone c ArchonCommandStatus.FAILED
  | some r =>
    if r.command_id ≠ c.command_id then markDone c ArchonCommandStatus.FAILED
    else
      let c' := { c with replies := c.replies ++ [r] }
      if r.rtype = 63 then markDone c' ArchonCommandStatus.FAILED
      else if c'.replies.length = c'.expected_replies then
        markDone c' ArchonCommandStatus.DONE
      else Except.ok c'

/-- `raw` (command.py:77-80): the serialized request,
`f">{self.command_id:02x}{self.command_string}"` — `>` then the id as two
LOWERCASE hexadecimal digits (format spec `x`), then the command string
(already uppercased by the constructor).  Modelled for ids in 0x00-0xFF,
where `02x` produces exactly two digits. -/
def raw_command (command_id : ℕ) (command_string : List ℕ) : List ℕ :=
  62 :: lowerHexDigit (command_id / 16 % 16) :: lowerHexDigit (command_id % 16) ::
    pyUpper command_string

/-!
## Controller id pool and running-commands map (controller.py:46-47, 560-576)
-/

/-- Modelled from the spec: `MAX_COMMAND_ID` is defined in
`archon/controller/__init__.py`, which is not part of the sources.  §6.1 says
"Command id space: 0x00-0xFF ... The constant `MAX_COMMAND_ID` shall be
defined at this bound", and `send_command`'s check
`command_id > MAX_COMMAND_ID` (controller.py:100) together with §4.2's
"`id` must be in 0x00-0xFF; otherwise `BAD_ID`" force
`MAX_COMMAND_ID = 0xFF = 255`. -/
def MAX_COMMAND_ID : ℕ := 0xFF

/-- `_get_id` (controller.py:560-564): raise when the pool is empty, else
remove and return an element (`set.pop` removes an arbitrary element; the
executable model removes the minimum, the transition relation below allows
any element). -/
def _get_id (pool : Finset ℕ) : Except String (ℕ × Finset ℕ) :=
  if h : pool.Nonempty then
    Except.ok (pool.min' h, pool.erase (pool.min' h))
  else Except.error "No ids reamining in the pool!"

/-- The command-id selection of `send_command` (controller.py:99-103):
`command_id = command_id or self._get_id()` — Python treats both `None` and
`0` as falsy, so an explicit id 0 is replaced by a pool id — followed by the
range check raising
`ArchonError(f"Command ID must be in the range [0, MAX_COMMAND_ID].")`.
Returns the chosen id and the pool after the call. -/
def send_command_id (command_id : Option ℤ) (pool : Finset ℕ) :
    Except String (ℤ × Finset ℕ) :=
  let drawn : Except String (ℤ × Finset ℕ) :=
    match command_id with
    | none => (_get_id pool).map (fun ip => ((ip.1 : ℤ), ip.2))
    | some k =>
      if k = 0 then (_get_id pool).map (fun ip => ((ip.1 : ℤ), ip.2))
      else Except.ok (k, pool)
  match drawn with
  | Except.error e => Except.error e
  | Except.ok (k, p) =>
    if k > (MAX_COMMAND_ID : ℤ) ∨ k < 0 then
      Except.error "Command ID must be in the range [0, 255]."
    else Except.ok (k, p)

/-- One pass of the `__track_commands` janitor (controller.py:566-576) over
the running-commands map (modelled as an association list): every command
whose future is done has its id added to the pool and its entry removed. -/
def track_commands_sweep (running : List (ℕ × ArchonCommand)) (pool : Finset ℕ) :
    List (ℕ × ArchonCommand) × Finset ℕ :=
  (running.filter (fun p => !p.2.futureDone),
   (running.filter (fun p => p.2.futureDone)).foldl (fun pl p => insert p.1 pl) pool)

/-!
## process_message (controller.py:179-190)
-/

/-- The header match of `process_message`:
`re.match(b"^[<|?]([0-9A-F]{2})", line)` — a prefix match only. -/
def matchMessageHeader (line : List ℕ) : Option ℕ :=
  match line with
  | t :: h1 :: h2 :: _ =>
    if isReplyTypeByte t && isUpperHexDigit h1 && isUpperHexDigit h2 then
      some (hexVal h1 * 16 + hexVal h2)
    else none
  | _ => none

/-- Outcome of `process_message` when no exception is raised. -/
inductive ProcessMessageOutcome where
  | dispatched (command_id : ℕ)
  | unknownIdWarning (command_id : ℕ)
deriving DecidableEq, Repr

/-- `process_message` (controller.py:179-190).  When the header regex does
not match, the code emits a warning but does NOT return: control falls
through to `int(match[1], 16)` with `match = None`, which raises
`TypeError` (modelled as `Except.error`).  When the command id is not in
`__running_commands`, it warns and returns.  Otherwise it dispatches the line
to the running command's `process_reply`. -/
def process_message (runningIds : List ℕ) (line : List ℕ) :
    Except String ProcessMessageOutcome :=
  match matchMessageHeader line with
  | none => Except.error "TypeError: NoneType object is not subscriptable"
  | some cid =>
    if cid ∈ runningIds then Except.ok (ProcessMessageOutcome.dispatched cid)
    else Except.ok (ProcessMessageOutcome.unknownIdWarning cid)

/-!
## The reader loop's binary reassembly (controller.py:505-558)
-/

/-- Python bytearray slice assignment `buf[start:start+chunk.len] = chunk`
for an in-range slice of equal length. -/
def setSlice (buf : List ℕ) (start : ℕ) (chunk : List ℕ) : List ℕ :=
  buf.take start ++ chunk ++ buf.drop (start + chunk.length)

/-- The `_listen` state relevant to binary reassembly: the pre-allocated
buffer `_binary_reply` (controller.py:56, 505-507) and the running offset
`n_binary` (controller.py:514). -/
structure ListenState where
  binaryReply : Option (List ℕ)
  nBinary : ℕ
deriving DecidableEq, Repr

/-- One binary chunk arriving in `_listen` (controller.py:526-554): `line` is
the 4 header bytes plus the 1024 payload bytes.  If `self._binary_reply` is
truthy (set and non-empty), the chunk is copied at offset `n_binary`, the
offset advances by 1028, and notification is deferred until the offset
reaches the buffer length, at which point the whole buffer is delivered and
the state resets.  Otherwise the chunk itself is delivered.  Returns the new
state and the delivered line, if any. -/
def listenBinaryChunk (s : ListenState) (line : List ℕ) :
    ListenState × Option (List ℕ) :=
  match s.binaryReply with
  | some buf =>
    if buf.length = 0 then (s, some line)
    else
      let buf' := setSlice buf s.nBinary line
      let n' := s.nBinary + 1028
      if n' = buf'.length then
        ({ binaryReply := none, nBinary := 0 }, some buf')
      else
        ({ binaryReply := some buf', nBinary := n' }, none)
  | none => (s, some line)

/-- Feeds a sequence of binary chunks through `_listen`, collecting the
delivered lines in order. -/
def listenFeed (s : ListenState) : List (List ℕ) → ListenState × List (List ℕ)
  | [] => (s, [])
  | c :: cs =>
    let step := listenBinaryChunk s c
    let rest := listenFeed step.1 cs
    (rest.1, step.2.toList ++ rest.2)

/-!
## ControllerStatus and integrate (controller.py:415-426)
-/

/-- Modelled from the spec: `ControllerStatus` lives in
`archon/controller/maskbits.py`, which is not part of the sources; §3 gives
the variant set UNKNOWN, IDLE, EXPOSING, READING, FETCHING, ERROR. -/
inductive ControllerStatus where
  | UNKNOWN
  | IDLE
  | EXPOSING
  | READING
  | FETCHING
  | ERROR
deriving DecidableEq, Repr

/-- Python `int()` applied to a rational value: truncation toward zero
(`Int.div` truncates toward zero and `q.den` is positive). -/
def pyInt (q : ℚ) : ℤ :=
  if 0 ≤ q then ⌊q⌋ else ⌈q⌉

/-- Modelled from the spec: `round(x)` as the spec's §4.5 writes the IntMS
value, `set_param("IntMS", round(exposure_time*1000))` — rounding to the
nearest integer (Mathlib's `round`). -/
def roundSpec (q : ℚ) : ℤ :=
  round q

/-- `integrate` (controller.py:415-426): raise unless the status is IDLE;
otherwise `set_param("IntMS", int(exposure_time * 1000))`,
`set_param("Exposures", 1)`, and set the status to EXPOSING.  The result is
the pair of parameter values written and the new status; the `FASTLOADPARAM`
device round-trips are abstracted as succeeding (a device failure raises a
different error and is outside the claims). -/
def integrate (status : ControllerStatus) (exposure_time : ℚ) :
    Except String (ℤ × ℤ × ControllerStatus) :=
  if status ≠ ControllerStatus.IDLE then
    Except.error "Status must be IDLE to start integrating."
  else
    Except.ok (pyInt (exposure_time * 1000), 1, ControllerStatus.EXPOSING)

/-!
## The exposure coordinator's counter file (expose.py:175-252)
-/

/-- The outcome of one per-controller exposure task
(`_do_one_controller`): it either raises an exception or returns a
boolean result. -/
inductive TaskOutcome where
  | raised
  | returned (b : Bool)
deriving DecidableEq, Repr

/-- Reading `nextExposureNumber` (expose.py:204-206): the stripped content
parsed as an integer, with an empty file reading as 1.  The content is
modelled as `none` for an empty file and `some n` for a file holding the
ASCII decimal integer `n`. -/
def readCounter : Option ℕ → ℕ
  | none => 1
  | some n => n

/-- The counter logic of `_do_exposures` (expose.py:202-252): read `N`,
run all controller tasks; if `asyncio.gather` raises (any task raised), the
error path returns before the write; if any task returned a falsy result,
return before the write; otherwise truncate the file and write `N + 1`.
Returns the overall result and the final file content. -/
def do_exposures (content : Option ℕ) (outcomes : List TaskOutcome) :
    Bool × Option ℕ :=
  let N := readCounter content
  if outcomes.any (fun o => o = TaskOutcome.raised) then (false, content)
  else if !(outcomes.all (fun o => o = TaskOutcome.returned true)) then
    (false, content)
  else (true, some (N + 1))

/-!
## Theorems for the claims
-/

/-- C1: For every exposure batch whose counter file initially contains the
ASCII decimal integer N (an empty file reads as 1): if every per-device
exposure task succeeds, the coordinator rewrites the file to contain exactly
N+1; if any task fails or the batch is aborted, the file still contains
exactly N (the counter is unchanged on error). -/
theorem C1_exposure_counter (content : Option ℕ) (outcomes : List TaskOutcome) :
    (outcomes.all (fun o => o = TaskOutcome.returned true) →
      do_exposures content outcomes = (true, some (readCounter content + 1))) ∧
    ((∃ o ∈ outcomes, o ≠ TaskOutcome.returned true) →
      do_exposures content outcomes = (false, content)) := by
  constructor
  · intro hall
    unfold do_exposures
    have hnr : outcomes.any (fun o => o = TaskOutcome.raised) = false := by
      rw [Bool.eq_false_iff]
      intro hc
      obtain ⟨o, ho, hoeq⟩ := List.any_eq_true.mp hc
      have := (List.all_eq_true.mp hall) _ ho
      simp only [decide_eq_true_eq] at this hoeq
      rw [hoeq] at this
      cases this
    simp [hnr, hall]
  · rintro ⟨o, ho, hne⟩
    unfold do_exposures
    have hnall : outcomes.all (fun o => o = TaskOutcome.returned true) = false := by
      rw [Bool.eq_false_iff]
      intro hc
      have := (List.all_eq_true.mp hc) _ ho
      simp only [decide_eq_true_eq] at this
      exact hne this
    by_cases hr : outcomes.any (fun o => o = TaskOutcome.raised) = true
    · simp [hr]
    · rw [Bool.not_eq_true] at hr
      simp [hr, hnall]

/-- Witness for C1 at concrete inputs: with the file containing 7 and a
single successful task the file ends holding 8; with a raised task it still
holds 7. -/
theorem C1_exposure_counter_witness :
    do_exposures (some 7) [TaskOutcome.returned true] = (true, some 8) ∧
    do_exposures (some 7) [TaskOutcome.raised] = (false, some 7) := by
  refine ⟨(C1_exposure_counter (some 7) [TaskOutcome.returned true]).1 (by decide), ?_⟩
  exact (C1_exposure_counter (some 7) [TaskOutcome.raised]).2
    ⟨TaskOutcome.raised, by simp, by decide⟩

/-- C4 counterexample: the claim says `integrate` sets IntMS to
`round(exposure_time * 1000)`, but the code computes
`int(exposure_time * 1000)`, which truncates toward zero.  At exposure time
19/10000 s (1.9 ms) the code writes IntMS = 1 while round(1.9) = 2. -/
theorem C4_integrate_counterexample :
    integrate ControllerStatus.IDLE (19 / 10000) =
      Except.ok (1, 1, ControllerStatus.EXPOSING) ∧
    roundSpec ((19 / 10000 : ℚ) * 1000) = 2 := by
  constructor
  · unfold integrate
    norm_num [pyInt]
  · unfold roundSpec
    norm_num [round_eq]

/-- C4 amended: for every exposure time t, `integrate(t)` raises BAD_STATE
if and only if the controller status is not IDLE; otherwise it sets
parameter IntMS to int(t*1000) (truncation toward zero, not rounding), sets
parameter Exposures to 1, sets the status to EXPOSING, and returns without
awaiting exposure completion. -/
theorem C4_integrate_amended (status : ControllerStatus) (t : ℚ) :
    ((∃ e, integrate status t = Except.error e) ↔ status ≠ ControllerStatus.IDLE) ∧
    (status = ControllerStatus.IDLE →
      integrate status t =
        Except.ok (pyInt (t * 1000), 1, ControllerStatus.EXPOSING)) := by
  constructor
  · constructor
    · rintro ⟨e, he⟩ hidle
      rw [integrate, if_neg (by simp [hidle])] at he
      cases he
    · intro hne
      exact ⟨"Status must be IDLE to start integrating.", by rw [integrate, if_pos hne]⟩
  · intro hidle
    rw [integrate, if_neg (by simp [hidle])]

/-- Witness for C4 at status IDLE and a 1 s exposure: IntMS is set to 1000,
Exposures to 1, and the status becomes EXPOSING. -/
theorem C4_integrate_witness :
    integrate ControllerStatus.IDLE 1 =
      Except.ok (1000, 1, ControllerStatus.EXPOSING) := by
  have h := (C4_integrate_amended ControllerStatus.IDLE 1).2 rfl
  rw [h]
  norm_num [pyInt]

/-- C6: the claim says both `ArchonCommand.__init__` and `send_command`
reject every id outside 0x00-0xFF, including 256.  The constructor's check is
`command_id > 2 ** 8`, i.e. `> 256`, so it ACCEPTS 256, contradicting its own
error message "command_id must be between 0x00 and 0xFF"; `send_command`
(checking against MAX_COMMAND_ID = 255) does reject 256.  Ids 0-255 are
accepted and 257 and negative ids rejected by both. -/
theorem C6_command_id_range :
    archonCommandIdOk 256 = true ∧
    send_command_id (some 256) (Finset.range 255) =
      Except.error "Command ID must be in the range [0, 255]." ∧
    archonCommandIdOk 257 = false ∧
    archonCommandIdOk (-1) = false ∧
    archonCommandIdOk 0 = true ∧
    archonCommandIdOk 255 = true := by
  refine ⟨by decide, ?_, by decide, by decide, by decide, by decide⟩
  rfl

/-- C7 counterexample: the claim says the request frame renders the command
id as two UPPERCASE hex digits, but `raw` uses the `02x` format spec, which
is lowercase.  For id 0x0A and command "status" the code produces
`>0aSTATUS` (byte 97 = `a`), not `>0ASTATUS` (byte 65 = `A`). -/
theorem C7_raw_counterexample :
    raw_command 10 [115, 116, 97, 116, 117, 115] =
      [62, 48, 97, 83, 84, 65, 84, 85, 83] ∧
    raw_command 10 [115, 116, 97, 116, 117, 115] ≠
      [62, 48, 65, 83, 84, 65, 84, 85, 83] := by
  constructor
  · rfl
  · decide

/-- Lowercase hexadecimal digit byte predicate (`0`-`9` or `a`-`f`). -/
def isLowerHexDigit (b : ℕ) : Bool :=
  (48 ≤ b && b ≤ 57) || (97 ≤ b && b ≤ 102)

/-- Value of a lowercase hexadecimal digit byte. -/
def lowerHexVal (b : ℕ) : ℕ :=
  if b ≤ 57 then b - 48 else b - 87

/-- C7 amended: for every Command with id in 0x00-0xFF, the serialized
request frame is `>` followed by the command id rendered as exactly two
LOWERCASE hexadecimal digits (which decode back to the id), followed by the
uppercased command text. -/
theorem C7_raw_amended (command_id : ℕ) (h : command_id < 256)
    (command_string : List ℕ) :
    raw_command command_id command_string =
      62 :: lowerHexDigit (command_id / 16) :: lowerHexDigit (command_id % 16) ::
        pyUpper command_string ∧
    isLowerHexDigit (lowerHexDigit (command_id / 16)) = true ∧
    isLowerHexDigit (lowerHexDigit (command_id % 16)) = true ∧
    lowerHexVal (lowerHexDigit (command_id / 16)) * 16 +
      lowerHexVal (lowerHexDigit (command_id % 16)) = command_id := by
  have hdiv : command_id / 16 < 16 := by omega
  have hmod : command_id % 16 < 16 := Nat.mod_lt _ (by norm_num)
  have hdm : command_id / 16 % 16 = command_id / 16 := Nat.mod_eq_of_lt hdiv
  refine ⟨by rw [raw_command, hdm], ?_, ?_, ?_⟩
  · unfold lowerHexDigit isLowerHexDigit
    split <;> simp <;> omega
  · unfold lowerHexDigit isLowerHexDigit
    split <;> simp <;> omega
  · have hd : lowerHexVal (lowerHexDigit (command_id / 16)) = command_id / 16 := by
      unfold lowerHexVal lowerHexDigit
      split <;> split <;> omega
    have hm : lowerHexVal (lowerHexDigit (command_id % 16)) = command_id % 16 := by
      unfold lowerHexVal lowerHexDigit
      split <;> split <;> omega
    rw [hd, hm]
    omega

/-- Witness for C7 at id 0x0A and command "status". -/
theorem C7_raw_witness :
    raw_command 10 [115, 116, 97, 116, 117, 115] =
      62 :: lowerHexDigit (10 / 16) :: lowerHexDigit (10 % 16) ::
        pyUpper [115, 116, 97, 116, 117, 115] ∧
    isLowerHexDigit (lowerHexDigit (10 / 16)) = true ∧
    isLowerHexDigit (lowerHexDigit (10 % 16)) = true ∧
    lowerHexVal (lowerHexDigit (10 / 16)) * 16 +
      lowerHexVal (lowerHexDigit (10 % 16)) = 10 :=
  C7_raw_amended 10 (by norm_num) [115, 116, 97, 116, 117, 115]

/-- C9: the claim says `process_message` never raises — an unparseable frame
or an unknown command id only emit a warning.  The unknown-id path does
return after warning, but on an unparseable frame the code warns WITHOUT
returning and then evaluates `int(match[1], 16)` with `match = None`, which
raises `TypeError` and kills the reader loop.  Evaluated here at the
unparseable line "hi\n" and at the valid line `<01...` with id 1 unknown
and known. -/
theorem C9_process_message_raises :
    process_message [] [104, 105, 10] =
      Except.error "TypeError: NoneType object is not subscriptable" ∧
    process_message [] [60, 48, 49, 10] =
      Except.ok (ProcessMessageOutcome.unknownIdWarning 1) ∧
    process_message [1] [60, 48, 49, 10] =
      Except.ok (ProcessMessageOutcome.dispatched 1) := by
  refine ⟨rfl, ?_, ?_⟩ <;> rfl

/-- C10: calling `send_command` with the explicit command id 0 does not use
the caller-supplied id: `command_id = command_id or self._get_id()` treats 0
as falsy, so a fresh id is drawn from the pool (id 0x00 can never be
explicitly requested), while every explicit id in 1-255 is used as given. -/
theorem C10_send_command_id_zero (pool : Finset ℕ) :
    (send_command_id (some 0) pool = send_command_id none pool) ∧
    (∀ (i : ℤ) (p' : Finset ℕ),
      send_command_id (some 0) pool = Except.ok (i, p') →
        ∃ j ∈ pool, (j : ℤ) = i ∧ p' = pool.erase j) ∧
    (∀ k : ℤ, 1 ≤ k → k ≤ 255 →
      send_command_id (some k) pool = Except.ok (k, pool)) := by
  have hzero : send_command_id (some 0) pool = send_command_id none pool := by
    simp [send_command_id]
  refine ⟨hzero, ?_, ?_⟩
  · intro i p' hok
    rw [hzero, send_command_id] at hok
    rw [_get_id] at hok
    by_cases h : pool.Nonempty
    · rw [dif_pos h] at hok
      simp only [Except.map] at hok
      split at hok
      · cases hok
      · rename_i heq
        simp only [Except.ok.injEq, Prod.mk.injEq] at hok
        exact ⟨pool.min' h, pool.min'_mem h, hok.1, hok.2.symm⟩
    · rw [dif_neg h] at hok
      simp [Except.map] at hok
  · intro k h1 h255
    rw [send_command_id]
    have hk0 : ¬(k = 0) := by omega
    simp only [if_neg hk0]
    rw [if_neg (by simp only [MAX_COMMAND_ID]; push_cast; omega)]

/-- Witness for C10: with the pool holding only id 5, an explicit id 0 is
routed to the pool draw, and an explicit id 3 is used as given. -/
theorem C10_send_command_id_zero_witness :
    send_command_id (some 0) {5} = send_command_id none {5} ∧
    send_command_id (some 3) {5} = Except.ok (3, {5}) :=
  ⟨(C10_send_command_id_zero {5}).1,
   (C10_send_command_id_zero {5}).2.2 3 (by norm_num) (by norm_num)⟩

/-- C8 counterexample: the claim says that once a command's status is not
RUNNING its replies list is frozen and never exceeds `expected_replies`.
But `process_reply` never checks the status: a command with
`expected_replies = 1` that is already DONE after `<05abc` still appends a
second matching reply `<05def`, ending DONE with 2 > 1 replies. -/
theorem C8_frozen_counterexample :
    (process_reply
        { command_id := 5, expected_replies := 1, replies := [],
          status := ArchonCommandStatus.RUNNING, futureDone := false }
        [60, 48, 53, 97, 98, 99, 10]).bind
      (fun c => process_reply c [60, 48, 53, 100, 101, 102, 10]) =
    Except.ok
      { command_id := 5, expected_replies := 1,
        replies :=
          [{ rtype := 60, command_id := 5, is_binary := false,
             reply := [97, 98, 99] },
           { rtype := 60, command_id := 5, is_binary := false,
             reply := [100, 101, 102] }],
        status := ArchonCommandStatus.DONE, futureDone := true } := by
  rfl

/-- Membership after the janitor's fold that returns done ids to the pool. -/
theorem foldl_insert_fst_mem (l : List (ℕ × ArchonCommand)) (pool : Finset ℕ)
    (a : ℕ) :
    a ∈ l.foldl (fun pl q => insert q.1 pl) pool ↔
      a ∈ pool ∨ ∃ c, (a, c) ∈ l := by
  induction l generalizing pool with
  | nil => simp
  | cons p t ih =>
    simp only [List.foldl_cons, ih, Finset.mem_insert, List.mem_cons]
    constructor
    · rintro ((rfl | hpool) | ⟨c, hc⟩)
      · exact Or.inr ⟨p.2, Or.inl rfl⟩
      · exact Or.inl hpool
      · exact Or.inr ⟨c, Or.inr hc⟩
    · rintro (hpool | ⟨c, (heq | hc)⟩)
      · exact Or.inl (Or.inr hpool)
      · exact Or.inl (Or.inl (by rw [← heq]))
      · exact Or.inr ⟨c, hc⟩

set_option linter.unusedVariables false in
/-- C8 amended: once a command's status is not RUNNING, its replies list is
NOT frozen: a further parseable success reply with the matching id (that does
not bring the count to exactly `expected_replies`) is still appended, so
`|replies|` can exceed `expected_replies`; the janitor's next sweep does
return every terminated (future-done) command's id to the free pool and
removes the command from the running map. -/
theorem C8_not_frozen_amended (c : ArchonCommand) (raw : List ℕ)
    (r : ArchonCommandReply)
    (hterm : c.status ≠ ArchonCommandStatus.RUNNING)
    (hp : parseArchonCommandReply raw = some r)
    (hid : r.command_id = c.command_id)
    (hok : r.rtype ≠ 63)
    (hlen : c.replies.length + 1 ≠ c.expected_replies) :
    process_reply c raw = Except.ok { c with replies := c.replies ++ [r] } ∧
    (∀ (running : List (ℕ × ArchonCommand)) (pool : Finset ℕ)
        (cid : ℕ) (cc : ArchonCommand),
      (cid, cc) ∈ running → cc.futureDone = true →
        cid ∈ (track_commands_sweep running pool).2 ∧
        (cid, cc) ∉ (track_commands_sweep running pool).1) := by
  constructor
  · rw [process_reply, hp]
    simp only [if_neg (by simp [hid] : ¬r.command_id ≠ c.command_id),
      if_neg hok]
    rw [if_neg (by simpa using hlen)]
  · intro running pool cid cc hmem hdone
    constructor
    · rw [track_commands_sweep]
      simp only
      rw [foldl_insert_fst_mem]
      exact Or.inr ⟨cc, List.mem_filter.mpr ⟨hmem, by simp [hdone]⟩⟩
    · rw [track_commands_sweep]
      simp only
      intro hcontra
      have := (List.mem_filter.mp hcontra).2
      simp [hdone] at this

/-- Witness for C8: a DONE command with one reply and `expected_replies = 1`
appends a second matching success reply, and the sweep of a running map
holding it returns id 5 to an empty pool. -/
theorem C8_not_frozen_witness :
    process_reply
        { command_id := 5, expected_replies := 1,
          replies :=
            [{ rtype := 60, command_id := 5, is_binary := false,
               reply := [97, 98, 99] }],
          status := ArchonCommandStatus.DONE, futureDone := true }
        [60, 48, 53, 100, 101, 102, 10] =
      Except.ok
        { command_id := 5, expected_replies := 1,
          replies :=
            [{ rtype := 60, command_id := 5, is_binary := false,
               reply := [97, 98, 99] },
             { rtype := 60, command_id := 5, is_binary := false,
               reply := [100, 101, 102] }],
          status := ArchonCommandStatus.DONE, futureDone := true } ∧
    (∀ (running : List (ℕ × ArchonCommand)) (pool : Finset ℕ)
        (cid : ℕ) (cc : ArchonCommand),
      (cid, cc) ∈ running → cc.futureDone = true →
        cid ∈ (track_commands_sweep running pool).2 ∧
        (cid, cc) ∉ (track_commands_sweep running pool).1) :=
  C8_not_frozen_amended
    { command_id := 5, expected_replies := 1,
      replies :=
        [{ rtype := 60, command_id := 5, is_binary := false,
           reply := [97, 98, 99] }],
      status := ArchonCommandStatus.DONE, futureDone := true }
    [60, 48, 53, 100, 101, 102, 10]
    { rtype := 60, command_id := 5, is_binary := false,
      reply := [100, 101, 102] }
    (by decide) (by decide) (by decide) (by decide) (by decide)

/-- A list without a leading newline is unchanged by dropping leading
newlines. -/
theorem dropWhile_beq_ten_of_not_mem {l : List ℕ} (h : 10 ∉ l) :
    l.dropWhile (fun b => b == 10) = l := by
  cases l with
  | nil => rfl
  | cons a t =>
    rw [List.dropWhile_cons]
    have ha : (a == 10) = false := by
      simp only [beq_eq_false_iff_ne, ne_eq]
      intro hq
      exact h (by simp [hq])
    rw [ha]
    simp

/-- Computation rule for group 4 of the reply regex, given the maximal
trailing-newline split of the remainder. -/
theorem regexGroup4_eq (tail pre : List ℕ)
    (hpre : (tail.reverse.dropWhile (fun b => b == 10)).reverse = pre)
    (hk : tail.length - pre.length ≤ 2) (hnl : 10 ∉ pre) :
    regexGroup4 tail = some pre := by
  have hc : pre.contains 10 = false := by
    rw [Bool.eq_false_iff]
    intro hq
    exact hnl (List.elem_iff.mp hq)
  simp only [regexGroup4, hpre]
  rw [if_pos (by simp [hk, hc, hnl])]

/-- Group 4 of the reply regex on a newline-free remainder matches the whole
remainder. -/
theorem regexGroup4_no_newline {tail : List ℕ} (h : 10 ∉ tail) :
    regexGroup4 tail = some tail := by
  refine regexGroup4_eq tail tail ?_ (by omega) h
  have hrev : 10 ∉ tail.reverse := by simpa using h
  rw [dropWhile_beq_ten_of_not_mem hrev, List.reverse_reverse]

/-- Group 4 of the reply regex on a newline-free message followed by one
newline matches the message (the optional newline of the pattern eats it). -/
theorem regexGroup4_append_newline {msg : List ℕ} (h : 10 ∉ msg) :
    regexGroup4 (msg ++ [10]) = some msg := by
  have hrev : 10 ∉ msg.reverse := by simpa using h
  refine regexGroup4_eq (msg ++ [10]) msg ?_ (by simp) h
  rw [List.reverse_append]
  simp only [List.reverse_cons, List.reverse_nil, List.nil_append,
    List.singleton_append, List.dropWhile_cons]
  rw [if_pos (by simp)]
  rw [dropWhile_beq_ten_of_not_mem hrev, List.reverse_reverse]

/-- Parsing a binary frame: type byte, two uppercase hex digits, a colon and
a newline-free payload yield a binary reply carrying the payload verbatim. -/
theorem parse_binary_frame (t h1 h2 : ℕ) (ht : isReplyTypeByte t = true)
    (hh1 : isUpperHexDigit h1 = true) (hh2 : isUpperHexDigit h2 = true)
    (p : List ℕ) (hpnl : 10 ∉ p) :
    parseArchonCommandReply (t :: h1 :: h2 :: 58 :: p) =
      some { rtype := t, command_id := hexVal h1 * 16 + hexVal h2,
             is_binary := true, reply := p } := by
  rw [parseArchonCommandReply]
  rw [if_pos (by simp [ht, hh1, hh2])]
  have h58 : ((58 :: p).head? = some 58) := rfl
  simp [h58, regexGroup4_no_newline hpnl]

/-- An uppercase hexadecimal digit byte round-trips through its value. -/
theorem upperHexDigit_hexVal {b : ℕ} (h : isUpperHexDigit b = true) :
    upperHexDigit (hexVal b) = b := by
  unfold isUpperHexDigit at h
  simp only [Bool.or_eq_true, Bool.and_eq_true, decide_eq_true_eq] at h
  unfold upperHexDigit hexVal
  split <;> split <;> omega

/-- The value of an uppercase hexadecimal digit byte is below 16. -/
theorem hexVal_lt_16 {b : ℕ} (h : isUpperHexDigit b = true) : hexVal b < 16 := by
  unfold isUpperHexDigit at h
  simp only [Bool.or_eq_true, Bool.and_eq_true, decide_eq_true_eq] at h
  unfold hexVal
  split <;> omega

set_option maxRecDepth 10000 in
/-- C5 counterexample: the claim says every well-formed §4.1 frame parses,
including frames with LOWERCASE command-id hex digits and binary frames with
arbitrary payload bytes including 0x0A.  `REPLY_RE` only matches `[0-9A-F]`,
so the frame `<0a\n` (lowercase `a`, byte 97) fails to parse; and a binary
frame `<01:` whose 1024 payload bytes start with 0x0A fails to parse because
`.` does not match a newline. -/
theorem C5_roundtrip_counterexample :
    parseArchonCommandReply [60, 48, 97, 10] = none ∧
    parseArchonCommandReply ([60, 48, 49, 58] ++ 10 :: List.replicate 1023 0) =
      none := by
  constructor
  · rfl
  · decide

/-- C5 amended: for every §4.1 reply frame whose two command-id hex digits
are UPPERCASE — textual frames with a newline-free message, and binary
frames `<hh:` plus 1024 bytes that contain no 0x0A — parsing succeeds and
serializing the parse returns the frame: exactly for binary frames, and
modulo the code's surrounding-whitespace strip of the message (not only
trailing) for textual frames. -/
theorem C5_roundtrip_amended (t h1 h2 : ℕ)
    (ht : isReplyTypeByte t = true)
    (hh1 : isUpperHexDigit h1 = true) (hh2 : isUpperHexDigit h2 = true) :
    (∀ msg : List ℕ, 10 ∉ msg → msg.head? ≠ some 58 →
      parseArchonCommandReply (t :: h1 :: h2 :: (msg ++ [10])) =
        some { rtype := t, command_id := hexVal h1 * 16 + hexVal h2,
               is_binary := false, reply := pyStrip msg } ∧
      serializeReply
          { rtype := t, command_id := hexVal h1 * 16 + hexVal h2,
            is_binary := false, reply := pyStrip msg } =
        t :: h1 :: h2 :: (pyStrip msg ++ [10])) ∧
    (∀ p : List ℕ, p.length = 1024 → 10 ∉ p →
      parseArchonCommandReply (t :: h1 :: h2 :: 58 :: p) =
        some { rtype := t, command_id := hexVal h1 * 16 + hexVal h2,
               is_binary := true, reply := p } ∧
      serializeReply
          { rtype := t, command_id := hexVal h1 * 16 + hexVal h2,
            is_binary := true, reply := p } =
        t :: h1 :: h2 :: 58 :: p) := by
  have hdiv : (hexVal h1 * 16 + hexVal h2) / 16 = hexVal h1 := by
    have := hexVal_lt_16 hh2
    omega
  have hmod : (hexVal h1 * 16 + hexVal h2) % 16 = hexVal h2 := by
    have := hexVal_lt_16 hh2
    omega
  constructor
  · intro msg hnl hhead
    have hhead' : ¬((msg ++ [10]).head? = some 58) := by
      cases msg with
      | nil => simp
      | cons a tl =>
        simp only [List.cons_append, List.head?_cons, ne_eq, Option.some.injEq]
        simpa using hhead
    constructor
    · rw [parseArchonCommandReply]
      rw [if_pos (by simp [ht, hh1, hh2])]
      simp [hhead, hhead', regexGroup4_append_newline hnl]
    · rw [serializeReply]
      simp only [Bool.false_eq_true, if_false]
      rw [hdiv, hmod, upperHexDigit_hexVal hh1, upperHexDigit_hexVal hh2]
  · intro p hplen hpnl
    constructor
    · exact parse_binary_frame t h1 h2 ht hh1 hh2 p hpnl
    · rw [serializeReply]
      simp only [if_true]
      rw [hdiv, hmod, upperHexDigit_hexVal hh1, upperHexDigit_hexVal hh2]

set_option maxRecDepth 10000 in
/-- Witness for C5 at the textual frame `<0A hi \n` and the binary frame
`<0A:` with 1024 `A` bytes. -/
theorem C5_roundtrip_witness :
    (parseArchonCommandReply (60 :: 48 :: 65 :: ([32, 104, 105, 32] ++ [10])) =
        some { rtype := 60, command_id := hexVal 48 * 16 + hexVal 65,
               is_binary := false, reply := pyStrip [32, 104, 105, 32] } ∧
      serializeReply
          { rtype := 60, command_id := hexVal 48 * 16 + hexVal 65,
            is_binary := false, reply := pyStrip [32, 104, 105, 32] } =
        60 :: 48 :: 65 :: (pyStrip [32, 104, 105, 32] ++ [10])) ∧
    (parseArchonCommandReply (60 :: 48 :: 65 :: 58 :: List.replicate 1024 65) =
        some { rtype := 60, command_id := hexVal 48 * 16 + hexVal 65,
               is_binary := true, reply := List.replicate 1024 65 } ∧
      serializeReply
          { rtype := 60, command_id := hexVal 48 * 16 + hexVal 65,
            is_binary := true, reply := List.replicate 1024 65 } =
        60 :: 48 :: 65 :: 58 :: List.replicate 1024 65) := by
  have h := C5_roundtrip_amended 60 48 65 (by decide) (by decide) (by decide)
  refine ⟨h.1 [32, 104, 105, 32] (by decide) (by decide),
         h.2 (List.replicate 1024 65) (by simp) ?_⟩
  rw [List.mem_replicate]
  omega

/-- The reassembly loop of `_listen`: starting from a pre-filled prefix
`pre` at offset `pre.length` with exactly room for the remaining 1028-byte
chunks, feeding those chunks fills the buffer left to right, delivers the
full buffer exactly once (on the last chunk), and resets the state. -/
theorem listenFeed_assembles (chunks : List (List ℕ)) (pre : List ℕ)
    (hne : chunks ≠ []) (hlen : ∀ c ∈ chunks, c.length = 1028) :
    listenFeed
        { binaryReply := some (pre ++ List.replicate (1028 * chunks.length) 0),
          nBinary := pre.length } chunks =
      ({ binaryReply := none, nBinary := 0 }, [pre ++ chunks.flatten]) := by
  induction chunks generalizing pre with
  | nil => exact absurd rfl hne
  | cons c cs ih =>
    have hc : c.length = 1028 := hlen c (by simp)
    cases cs with
    | nil =>
      rw [listenFeed, listenBinaryChunk]
      simp only
      rw [if_neg (by
        simp only [List.length_append, List.length_replicate, List.length_cons,
          List.length_nil]
        omega)]
      rw [setSlice]
      rw [List.take_left pre _]
      have hdrop : (pre ++ List.replicate (1028 * [c].length) 0).drop
          (pre.length + c.length) = [] := by
        apply List.drop_eq_nil_of_le
        simp only [List.length_append, List.length_replicate, List.length_cons,
          List.length_nil, hc]
        omega
      rw [hdrop, List.append_nil]
      rw [if_pos (by
        simp only [List.length_append, hc])]
      rw [listenFeed]
      simp only [Option.toList, List.flatten_cons, List.flatten_nil,
        List.append_nil, List.nil_append]
    | cons c2 cs2 =>
      rw [listenFeed, listenBinaryChunk]
      simp only
      rw [if_neg (by
        simp only [List.length_append, List.length_replicate, List.length_cons]
        omega)]
      have hsplit : pre ++ List.replicate (1028 * (c :: c2 :: cs2).length) 0 =
          (pre ++ List.replicate 1028 0) ++
            List.replicate (1028 * (c2 :: cs2).length) 0 := by
        have harg : 1028 * (c :: c2 :: cs2).length =
            1028 + 1028 * (c2 :: cs2).length := by
          simp only [List.length_cons]
          ring
        rw [List.append_assoc, harg, List.replicate_add]
      have hdrop : (pre ++ List.replicate (1028 * (c :: c2 :: cs2).length) 0).drop
          (pre.length + c.length) =
          List.replicate (1028 * (c2 :: cs2).length) 0 := by
        rw [hsplit, hc]
        have hl : pre.length + 1028 = (pre ++ List.replicate 1028 0).length := by
          simp only [List.length_append, List.length_replicate]
        rw [hl]
        exact List.drop_left _ _
      rw [setSlice]
      rw [List.take_left pre _]
      rw [hdrop]
      rw [if_neg (by
        simp only [List.length_append, List.length_replicate, List.length_cons, hc]
        omega)]
      have hfix : pre ++ c ++ List.replicate (1028 * (c2 :: cs2).length) 0 =
          (pre ++ c) ++ List.replicate (1028 * (c2 :: cs2).length) 0 := rfl
      have hn' : pre.length + 1028 = (pre ++ c).length := by
        simp only [List.length_append, hc]
      rw [hfix, hn']
      rw [ih (pre ++ c) (by simp) (fun d hd => hlen d (by simp [hd]))]
      simp only [Option.toList, List.nil_append, List.flatten_cons,
        List.append_assoc]

/-- Length of a reassembled sequence of header+payload chunks: each chunk is
4 header bytes plus a 1024-byte payload. -/
theorem flatten_chunks_length (h1 h2 : ℕ) (ps : List (List ℕ))
    (hp : ∀ p ∈ ps, p.length = 1024) :
    ((ps.map (fun p => [60, h1, h2, 58] ++ p)).flatten).length =
      1028 * ps.length := by
  induction ps with
  | nil => simp
  | cons q qs ih =>
    simp only [List.map_cons, List.flatten_cons, List.length_append,
      List.length_cons]
    rw [ih (fun p hmem => hp p (by simp [hmem]))]
    have hq : q.length = 1024 := hp q (by simp)
    simp only [hq, List.length_nil]
    omega

/-- C2 counterexample: the claim says that for n_blocks = 2 the single
delivered reply has payload length exactly 2048 with no chunk-header bytes in
it.  Feeding the two 1028-byte chunks `<01:` + 1024 zero bytes into the
pre-allocated 2056-byte buffer delivers the WHOLE buffer once; parsing it
consumes only the first 4-byte header, so the reply has length 2052, and the
second chunk's header bytes `<01:` sit at offsets 1024..1027 of the
payload. -/
theorem C2_reassembly_counterexample :
    (listenFeed { binaryReply := some (List.replicate 2056 0), nBinary := 0 }
        [[60, 48, 49, 58] ++ List.replicate 1024 0,
         [60, 48, 49, 58] ++ List.replicate 1024 0]).2 =
      [([60, 48, 49, 58] ++ List.replicate 1024 0) ++
        ([60, 48, 49, 58] ++ List.replicate 1024 0)] ∧
    (parseArchonCommandReply
        (([60, 48, 49, 58] ++ List.replicate 1024 0) ++
          ([60, 48, 49, 58] ++ List.replicate 1024 0))).map
        (fun r => (r.reply.length, (r.reply.drop 1024).take 4)) =
      some (2052, [60, 48, 49, 58]) ∧
    (2052 : ℕ) ≠ 2048 := by
  refine ⟨?_, ?_, by decide⟩
  · have h := listenFeed_assembles
        [[60, 48, 49, 58] ++ List.replicate 1024 0,
         [60, 48, 49, 58] ++ List.replicate 1024 0] []
        (List.cons_ne_nil _ _)
        (by
          intro c hc
          simp only [List.mem_cons, List.not_mem_nil, or_false] at hc
          rcases hc with rfl | rfl <;>
            simp only [List.length_append, List.length_replicate,
              List.length_cons, List.length_nil])
    have h2056 : (1028 : ℕ) *
        [[60, 48, 49, 58] ++ List.replicate 1024 (0 : ℕ),
         [60, 48, 49, 58] ++ List.replicate 1024 0].length = 2056 := by
      simp only [List.length_cons, List.length_nil]
    rw [h2056] at h
    simp only [List.nil_append, List.length_nil] at h
    have hfl : [[60, 48, 49, 58] ++ List.replicate 1024 (0 : ℕ),
        [60, 48, 49, 58] ++ List.replicate 1024 0].flatten =
        ([60, 48, 49, 58] ++ List.replicate 1024 0) ++
          ([60, 48, 49, 58] ++ List.replicate 1024 0) := by
      simp only [List.flatten_cons, List.flatten_nil, List.append_nil]
    rw [hfl] at h
    rw [h]
  · have hnl : (10 : ℕ) ∉
        List.replicate 1024 (0 : ℕ) ++ ([60, 48, 49, 58] ++ List.replicate 1024 0) := by
      intro hm
      rcases List.mem_append.mp hm with hm | hm
      · rw [List.mem_replicate] at hm
        omega
      · rcases List.mem_append.mp hm with hm | hm
        · simp only [List.mem_cons, List.not_mem_nil, or_false] at hm
          omega
        · rw [List.mem_replicate] at hm
          omega
    have harg : ([60, 48, 49, 58] ++ List.replicate 1024 (0 : ℕ)) ++
        ([60, 48, 49, 58] ++ List.replicate 1024 0) =
        60 :: 48 :: 49 :: 58 ::
          (List.replicate 1024 0 ++ ([60, 48, 49, 58] ++ List.replicate 1024 0)) := rfl
    rw [harg,
      parse_binary_frame 60 48 49 (by decide) (by decide) (by decide) _ hnl]
    simp only [Option.map_some', Option.some.injEq, Prod.mk.injEq]
    constructor
    · simp only [List.length_append, List.length_replicate, List.length_cons,
        List.length_nil]
    · have hdrop : (List.replicate 1024 (0 : ℕ) ++
          ([60, 48, 49, 58] ++ List.replicate 1024 0)).drop 1024 =
          [60, 48, 49, 58] ++ List.replicate 1024 0 :=
        List.drop_left' (List.length_replicate 1024 0)
      rw [hdrop]
      rfl

/-- C2 amended: during a fetch with a pre-allocated binary buffer of
(1024+4)*n_blocks bytes, feeding n_blocks chunks of 1028 bytes each (a
4-byte `<hh:` header plus 1024 newline-free payload bytes) produces exactly
one reply on the FETCH command, but that reply's payload is the assembled
buffer minus only the FIRST 4-byte header: its length is
1028*n_blocks - 4 (2052 for n_blocks = 2), and the later chunks' header
bytes remain embedded in the delivered payload. -/
theorem C2_reassembly_amended (h1 h2 : ℕ) (payloads : List (List ℕ))
    (hh1 : isUpperHexDigit h1 = true) (hh2 : isUpperHexDigit h2 = true)
    (hne : payloads ≠ [])
    (hp : ∀ p ∈ payloads, p.length = 1024 ∧ 10 ∉ p) :
    listenFeed
        { binaryReply := some (List.replicate (1028 * payloads.length) 0),
          nBinary := 0 }
        (payloads.map (fun p => [60, h1, h2, 58] ++ p)) =
      ({ binaryReply := none, nBinary := 0 },
        [(payloads.map (fun p => [60, h1, h2, 58] ++ p)).flatten]) ∧
    parseArchonCommandReply
        ((payloads.map (fun p => [60, h1, h2, 58] ++ p)).flatten) =
      some { rtype := 60, command_id := hexVal h1 * 16 + hexVal h2,
             is_binary := true,
             reply :=
               ((payloads.map (fun p => [60, h1, h2, 58] ++ p)).flatten).drop 4 } ∧
    (((payloads.map (fun p => [60, h1, h2, 58] ++ p)).flatten).drop 4).length =
      1028 * payloads.length - 4 ∧
    process_reply
        { command_id := hexVal h1 * 16 + hexVal h2, expected_replies := 1,
          replies := [], status := ArchonCommandStatus.RUNNING,
          futureDone := false }
        ((payloads.map (fun p => [60, h1, h2, 58] ++ p)).flatten) =
      Except.ok
        { command_id := hexVal h1 * 16 + hexVal h2, expected_replies := 1,
          replies :=
            [{ rtype := 60, command_id := hexVal h1 * 16 + hexVal h2,
               is_binary := true,
               reply :=
                 ((payloads.map (fun p => [60, h1, h2, 58] ++ p)).flatten).drop 4 }],
          status := ArchonCommandStatus.DONE, futureDone := true } := by
  have hfeed : listenFeed
      { binaryReply := some (List.replicate (1028 * payloads.length) 0),
        nBinary := 0 }
      (payloads.map (fun p => [60, h1, h2, 58] ++ p)) =
      ({ binaryReply := none, nBinary := 0 },
        [(payloads.map (fun p => [60, h1, h2, 58] ++ p)).flatten]) := by
    have h := listenFeed_assembles (payloads.map (fun p => [60, h1, h2, 58] ++ p))
      [] (by simpa [List.map_eq_nil_iff] using hne)
      (by
        intro c hc
        obtain ⟨p, hpmem, rfl⟩ := List.mem_map.mp hc
        simp only [List.length_append, (hp p hpmem).1, List.length_cons,
          List.length_nil])
    simpa using h
  obtain ⟨p0, rest, rfl⟩ :
      ∃ p0 rest, payloads = p0 :: rest := by
    cases payloads with
    | nil => exact absurd rfl hne
    | cons a b => exact ⟨a, b, rfl⟩
  have hne10 : ∀ b : ℕ, isUpperHexDigit b = true → b ≠ 10 := by
    intro b hb
    unfold isUpperHexDigit at hb
    simp only [Bool.or_eq_true, Bool.and_eq_true, decide_eq_true_eq] at hb
    omega
  have hflat : ((p0 :: rest).map (fun p => [60, h1, h2, 58] ++ p)).flatten =
      60 :: h1 :: h2 :: 58 ::
        (p0 ++ ((rest.map (fun p => [60, h1, h2, 58] ++ p)).flatten)) := by
    simp [List.flatten_cons]
  have hnl : 10 ∉ p0 ++ ((rest.map (fun p => [60, h1, h2, 58] ++ p)).flatten) := by
    intro hmem
    rcases List.mem_append.mp hmem with hm | hm
    · exact (hp p0 (by simp)).2 hm
    · obtain ⟨c, hcmem, h10c⟩ := List.mem_flatten.mp hm
      obtain ⟨p, hpmem, rfl⟩ := List.mem_map.mp hcmem
      rcases List.mem_append.mp h10c with hh | hh
      · simp only [List.mem_cons, List.not_mem_nil, or_false] at hh
        rcases hh with h | h | h | h
        · cases h
        · exact hne10 h1 hh1 h.symm
        · exact hne10 h2 hh2 h.symm
        · cases h
      · exact (hp p (by simp [hpmem])).2 hh
  have hparse : parseArchonCommandReply
      (((p0 :: rest).map (fun p => [60, h1, h2, 58] ++ p)).flatten) =
      some { rtype := 60, command_id := hexVal h1 * 16 + hexVal h2,
             is_binary := true,
             reply :=
               (((p0 :: rest).map (fun p => [60, h1, h2, 58] ++ p)).flatten).drop
                 4 } := by
    rw [hflat]
    exact parse_binary_frame 60 h1 h2 (by decide) hh1 hh2 _ hnl
  have hlenflat : (((p0 :: rest).map (fun p => [60, h1, h2, 58] ++ p)).flatten).length =
      1028 * (p0 :: rest).length :=
    flatten_chunks_length h1 h2 (p0 :: rest) (fun p hm => (hp p hm).1)
  refine ⟨hfeed, hparse, ?_, ?_⟩
  · rw [List.length_drop, hlenflat]
  · rw [process_reply, hparse]
    simp [markDone]

set_option maxRecDepth 10000 in
/-- Witness for C2 with a single chunk (n_blocks = 1) of header `<01:` and a
payload of 1024 `A` bytes. -/
theorem C2_reassembly_witness :
    listenFeed
        { binaryReply :=
            some (List.replicate (1028 * [List.replicate 1024 65].length) 0),
          nBinary := 0 }
        ([List.replicate 1024 65].map (fun p => [60, 48, 49, 58] ++ p)) =
      ({ binaryReply := none, nBinary := 0 },
        [([List.replicate 1024 65].map (fun p => [60, 48, 49, 58] ++ p)).flatten]) ∧
    parseArchonCommandReply
        (([List.replicate 1024 65].map (fun p => [60, 48, 49, 58] ++ p)).flatten) =
      some { rtype := 60, command_id := hexVal 48 * 16 + hexVal 49,
             is_binary := true,
             reply :=
               (([List.replicate 1024 65].map
                 (fun p => [60, 48, 49, 58] ++ p)).flatten).drop 4 } ∧
    ((([List.replicate 1024 65].map
        (fun p => [60, 48, 49, 58] ++ p)).flatten).drop 4).length =
      1028 * [List.replicate 1024 65].length - 4 ∧
    process_reply
        { command_id := hexVal 48 * 16 + hexVal 49, expected_replies := 1,
          replies := [], status := ArchonCommandStatus.RUNNING,
          futureDone := false }
        (([List.replicate 1024 65].map (fun p => [60, 48, 49, 58] ++ p)).flatten) =
      Except.ok
        { command_id := hexVal 48 * 16 + hexVal 49, expected_replies := 1,
          replies :=
            [{ rtype := 60, command_id := hexVal 48 * 16 + hexVal 49,
               is_binary := true,
               reply :=
                 (([List.replicate 1024 65].map
                   (fun p => [60, 48, 49, 58] ++ p)).flatten).drop 4 }],
          status := ArchonCommandStatus.DONE, futureDone := true } :=
  C2_reassembly_amended 48 49 [List.replicate 1024 65] (by decide) (by decide)
    (by simp)
    (by
      intro p hmem
      simp only [List.mem_cons, List.not_mem_nil, or_false] at hmem
      subst hmem
      refine ⟨by simp, ?_⟩
      rw [List.mem_replicate]
      omega)
